import Mathlib

/-!
# Verification of the forwarding-gateway pipeline (src/index.js)

Shallow embedding of the single-endpoint HTTP proxy: API-key
authentication, URL/domain validation, header translation, outbound
dispatch and response normalisation.  External collaborators (the WHATWG
URL parser `new URL` and the network `fetch`) are abstracted as
parameters: `parseHostname : String → Option String` returns the
hostname of a URL that parses, `none` when the parser throws; the
network's behaviour for the single outbound call is a `FetchOutcome`
value.  The pipeline records the outbound call it issues (if any) so
that "no outbound call is made" is expressible.
-/

namespace Proxy

/-- Error message constants (source: `const ERRORS = ...`, index.js). -/
def ERRORS.INVALID_API_KEY : String := "Invalid API key"

def ERRORS.URL_REQUIRED : String := "URL required"

def ERRORS.DOMAIN_NOT_ALLOWED : String := "Domain not allowed"

def ERRORS.INVALID_URL_FORMAT : String := "Invalid URL format"

def ERRORS.PROXY_REQUEST_FAILED : String := "Proxy request failed"

/-- JS truthiness of a `string | undefined` value: `undefined` and the
empty string are falsy, every other string is truthy. -/
def jsFalsy : Option String → Bool
  | none => true
  | some s => s = ""

/-- JS `a || b` on `string | undefined` values, as used in
`req.query?.url || req.body?.url`: returns `a` when `a` is truthy,
otherwise `b`. -/
def jsOr (a b : Option String) : Option String :=
  match a with
  | some s => if s = "" then b else some s
  | none => b

/-- JS `p.isPrefixOf`-style check on character lists, used to model
`String.prototype.startsWith` and the first-occurrence search of
`String.prototype.replace`. -/
def strStartsWith (s p : String) : Bool :=
  p.data.isPrefixOf s.data

/-- Remove the first occurrence of the pattern `p` from the character
list, leaving the list unchanged when `p` does not occur.  Models the
effect of JS `s.replace(p, '')` with a string pattern, which replaces
only the first occurrence. -/
def removeFirstOcc (p : List Char) : List Char → List Char
  | [] => []
  | c :: cs =>
    if p.isPrefixOf (c :: cs) then (c :: cs).drop p.length
    else c :: removeFirstOcc p cs

/-- JS `s.replace(p, '')`: delete the first occurrence of `p` in `s`. -/
def jsReplaceFirst (s p : String) : String :=
  ⟨removeFirstOcc p.data s.data⟩

/-- Does `p` occur as a contiguous substring of the list?  Models JS
`String.prototype.includes`. -/
def hasSubstr (p : List Char) : List Char → Bool
  | [] => p.isEmpty
  | c :: cs => p.isPrefixOf (c :: cs) || hasSubstr p cs

/-- JS `s.includes(sub)`: substring containment, not exact match. -/
def strIncludes (s sub : String) : Bool :=
  hasSubstr sub.data s.data

/-- JSON values, for upstream response bodies decoded by
`response.json()`. -/
inductive Json where
  | null : Json
  | bool (b : Bool) : Json
  | num (n : Int) : Json
  | str (s : String) : Json
  | arr (elems : List Json) : Json
  | obj (fields : List (String × Json)) : Json

/-- The `data` field of the response envelope: a decoded JSON value or
an opaque text string (source: `parseResponseData` returns
`Object | string`). -/
inductive RespData where
  | json (v : Json) : RespData
  | text (s : String) : RespData

/-- An upstream HTTP response as visible to the pipeline.
`contentType` is `response.headers.get('content-type')` (`none` when
the header is absent, i.e. `null` in JS); `jsonResult` is the outcome
of `response.json()` and `textResult` of `response.text()`, with
`Except.error` standing for the promise rejecting (JSON-decode failure
resp. body-read failure). -/
structure UpstreamResponse where
  status : Nat
  contentType : Option String
  jsonResult : Except Unit Json
  textResult : Except Unit String

/-- Source: `parseResponseData` (index.js lines 47-55).  Reads the
`content-type` header; when it is present and contains the substring
`application/json` the body is decoded as JSON, otherwise it is read as
text.  A thrown body error propagates (`Except.error`). -/
def parseResponseData (resp : UpstreamResponse) : Except Unit RespData :=
  match resp.contentType with
  | some ct =>
    if strIncludes ct "application/json" then
      resp.jsonResult.map RespData.json
    else
      resp.textResult.map RespData.text
  | none => resp.textResult.map RespData.text

/-- Behaviour of the single outbound `fetch` call: either the network
call itself fails (rejected promise: DNS, connection, TLS failure) or
it yields an upstream response. -/
inductive FetchOutcome where
  | networkError : FetchOutcome
  | ok (resp : UpstreamResponse) : FetchOutcome

/-- Process-wide configuration.  `apiKey` is the value of
`API_KEY = functions.config().proxy?.apikey || null` (`none` = `null`);
`allowedDomains` is `ALLOWED_DOMAINS`, the comma-split whitelist. -/
structure Config where
  apiKey : Option String
  allowedDomains : List String

/-- The inbound request as the core reads it: the method, the header
mapping (keys as stored by the platform), and the four optionally
present fields `req.query?.url`, `req.query?.body`, `req.body?.url`,
`req.body?.body` (`none` = the field, or its containing object, is
absent). -/
structure Request where
  method : String
  headers : List (String × String)
  queryUrl : Option String
  queryBody : Option String
  bodyUrl : Option String
  bodyBody : Option String

/-- Result of `validateUrl`: the source's `{valid: boolean, error?}`. -/
inductive UrlValidation where
  | valid : UrlValidation
  | invalid (error : String) : UrlValidation
deriving DecidableEq

/-- Source: `validateUrl` (index.js lines 28-40).  `!url` rejects an
absent or empty URL with `URL_REQUIRED`; then `new URL(url)` is
attempted (modelled by `parseHostname`, `none` = the constructor
throws, rejected with `INVALID_URL_FORMAT`); finally the hostname must
be a member of the allowed-domain list, else `DOMAIN_NOT_ALLOWED`. -/
def validateUrl (parseHostname : String → Option String)
    (allowedDomains : List String) (url : Option String) : UrlValidation :=
  match url with
  | none => .invalid ERRORS.URL_REQUIRED
  | some u =>
    if u = "" then .invalid ERRORS.URL_REQUIRED
    else
      match parseHostname u with
      | none => .invalid ERRORS.INVALID_URL_FORMAT
      | some host =>
        if allowedDomains.contains host then .valid
        else .invalid ERRORS.DOMAIN_NOT_ALLOWED

/-- Source: index.js lines 88-93.  Every inbound header key that starts
with `x-target-` is forwarded with `key.replace('x-target-', '')` as
the outbound key and the original value; other keys are dropped. -/
def translateHeaders (headers : List (String × String)) :
    List (String × String) :=
  headers.filterMap fun kv =>
    if strStartsWith kv.1 "x-target-" then
      some (jsReplaceFirst kv.1 "x-target-", kv.2)
    else none

/-- Source: index.js line 73, `!API_KEY ||
req.headers['x-api-key'] !== API_KEY`.  `apiKey` is the configured
`API_KEY`, `provided` the inbound `x-api-key` header value. -/
def authRejected (apiKey provided : Option String) : Bool :=
  jsFalsy apiKey || decide (provided ≠ apiKey)

/-- The outbound call the pipeline issues:
`fetch(url, {method, headers, body})`. -/
structure OutboundCall where
  url : String
  method : String
  headers : List (String × String)
  body : Option String

/-- What the pipeline sends back to the caller: either
`res.status(s).json({error: msg})` or the success path
`res.json({status, data})` (which Express sends with HTTP status
200). -/
inductive ProxyResponse where
  | err (httpStatus : Nat) (message : String) : ProxyResponse
  | envelope (upstreamStatus : Nat) (data : RespData) : ProxyResponse

/-- The HTTP status the caller observes: the explicit status of an
error response, 200 for the success envelope. -/
def ProxyResponse.httpStatus : ProxyResponse → Nat
  | .err s _ => s
  | .envelope _ _ => 200

/-- Full observable outcome of one request: the response plus the
outbound call made (`none` = no outbound call was issued). -/
structure Outcome where
  response : ProxyResponse
  outboundCall : Option OutboundCall

/-- Source: the `proxy` handler (index.js lines 69-115), for one
request.  `parseHostname` abstracts `new URL`, `fetchOutcome` the
network's behaviour for the single outbound call, `cfg` the
process-wide configuration.  The stages run in source order:
authentication, target extraction (`query || body`), URL validation
(any failure answered with status 400), header translation, fetch,
response parsing; the surrounding `try/catch` turns every thrown
failure into status 500 `PROXY_REQUEST_FAILED`. -/
def proxy (parseHostname : String → Option String)
    (fetchOutcome : FetchOutcome) (cfg : Config) (req : Request) : Outcome :=
  if authRejected cfg.apiKey (req.headers.lookup "x-api-key") then
    ⟨.err 401 ERRORS.INVALID_API_KEY, none⟩
  else
    let url := jsOr req.queryUrl req.bodyUrl
    let body := jsOr req.queryBody req.bodyBody
    match validateUrl parseHostname cfg.allowedDomains url with
    | .invalid e => ⟨.err 400 e, none⟩
    | .valid =>
      let outHeaders := translateHeaders req.headers
      let call : OutboundCall := ⟨url.getD "", req.method, outHeaders, body⟩
      match fetchOutcome with
      | .networkError => ⟨.err 500 ERRORS.PROXY_REQUEST_FAILED, some call⟩
      | .ok resp =>
        match parseResponseData resp with
        | .error _ => ⟨.err 500 ERRORS.PROXY_REQUEST_FAILED, some call⟩
        | .ok d => ⟨.envelope resp.status d, some call⟩

/-- An outbound forward attempt fails when the network call rejects or
when reading/decoding the response body throws. -/
def fetchFailed : FetchOutcome → Bool
  | .networkError => true
  | .ok resp =>
    match parseResponseData resp with
    | .error _ => true
    | .ok _ => false

/-- The outbound call the pipeline issues once validation has passed:
the resolved target URL, the inbound method, the translated headers and
the resolved payload. -/
def proxyCall (req : Request) : OutboundCall :=
  ⟨(jsOr req.queryUrl req.bodyUrl).getD "", req.method,
    translateHeaders req.headers, jsOr req.queryBody req.bodyBody⟩

end Proxy

namespace Proxy

/-! ## Lemmas about the string helpers -/

theorem isPrefixOf_iff_exists (p s : List Char) :
    p.isPrefixOf s = true ↔ ∃ t, s = p ++ t := by
  rw [List.isPrefixOf_iff_prefix]
  constructor
  · rintro ⟨t, h⟩
    exact ⟨t, h.symm⟩
  · rintro ⟨t, h⟩
    exact ⟨t, h.symm⟩

theorem removeFirstOcc_append (p t : List Char) :
    removeFirstOcc p (p ++ t) = t := by
  cases p with
  | nil =>
    cases t with
    | nil => rfl
    | cons c cs => simp [removeFirstOcc, List.isPrefixOf]
  | cons a as =>
    show removeFirstOcc (a :: as) (a :: (as ++ t)) = t
    have hp : (a :: as).isPrefixOf (a :: (as ++ t)) = true := by
      rw [isPrefixOf_iff_exists]
      exact ⟨t, by simp⟩
    rw [removeFirstOcc, if_pos hp]
    simp

theorem strStartsWith_iff (s p : String) :
    strStartsWith s p = true ↔ ∃ t : String, s = p ++ t := by
  unfold strStartsWith
  rw [isPrefixOf_iff_exists]
  constructor
  · rintro ⟨t, h⟩
    refine ⟨⟨t⟩, String.ext ?_⟩
    rw [String.data_append]
    exact h
  · rintro ⟨t, rfl⟩
    exact ⟨t.data, by rw [String.data_append]⟩

theorem jsReplaceFirst_append (p t : String) :
    jsReplaceFirst (p ++ t) p = t := by
  apply String.ext
  show removeFirstOcc p.data (p ++ t).data = t.data
  rw [String.data_append, removeFirstOcc_append]

theorem string_append_left_cancel {p a b : String} (h : p ++ a = p ++ b) :
    a = b := by
  apply String.ext
  have h2 := congrArg String.data h
  rw [String.data_append, String.data_append] at h2
  exact List.append_cancel_left h2

theorem hasSubstr_iff (p s : List Char) :
    hasSubstr p s = true ↔ ∃ pre post, s = pre ++ p ++ post := by
  induction s with
  | nil =>
    rw [hasSubstr]
    constructor
    · intro h
      exact ⟨[], [], by simpa [List.isEmpty_iff] using h.symm⟩
    · rintro ⟨pre, post, h⟩
      have h2 := h.symm
      simp only [List.append_assoc, List.append_eq_nil] at h2
      simp [List.isEmpty_iff, h2.2.1]
  | cons c cs ih =>
    rw [hasSubstr]
    simp only [Bool.or_eq_true]
    rw [isPrefixOf_iff_exists, ih]
    constructor
    · rintro (⟨t, ht⟩ | ⟨pre, post, hp2⟩)
      · exact ⟨[], t, by simpa using ht⟩
      · exact ⟨c :: pre, post, by simp [hp2]⟩
    · rintro ⟨pre, post, h⟩
      cases pre with
      | nil =>
        exact Or.inl ⟨post, by simpa using h⟩
      | cons d pre =>
        rw [List.cons_append, List.cons_append] at h
        injection h with h1 h2
        exact Or.inr ⟨pre, post, h2⟩

theorem translateHeaders_cons_true (k0 v0 : String)
    (rest : List (String × String))
    (h : strStartsWith k0 "x-target-" = true) :
    translateHeaders ((k0, v0) :: rest) =
      (jsReplaceFirst k0 "x-target-", v0) :: translateHeaders rest := by
  simp [translateHeaders, List.filterMap_cons, h]

theorem translateHeaders_cons_false (k0 v0 : String)
    (rest : List (String × String))
    (h : strStartsWith k0 "x-target-" = false) :
    translateHeaders ((k0, v0) :: rest) = translateHeaders rest := by
  simp [translateHeaders, List.filterMap_cons, h]

/-- Membership characterisation of the header translation: the outbound
mapping holds `(k, v)` exactly when the inbound mapping holds
`("x-target-" ++ k, v)`. -/
theorem translateHeaders_mem_iff (hs : List (String × String)) (k v : String) :
    (k, v) ∈ translateHeaders hs ↔ ("x-target-" ++ k, v) ∈ hs := by
  induction hs with
  | nil => simp [translateHeaders]
  | cons kv rest ih =>
    obtain ⟨k0, v0⟩ := kv
    cases h : strStartsWith k0 "x-target-" with
    | true =>
      obtain ⟨t, rfl⟩ := (strStartsWith_iff k0 _).mp h
      rw [translateHeaders_cons_true _ _ _ h, jsReplaceFirst_append]
      simp only [List.mem_cons, Prod.mk.injEq, ih]
      constructor
      · rintro (⟨rfl, rfl⟩ | hmem)
        · exact Or.inl ⟨rfl, rfl⟩
        · exact Or.inr hmem
      · rintro (⟨hk, rfl⟩ | hmem)
        · exact Or.inl ⟨string_append_left_cancel hk, rfl⟩
        · exact Or.inr hmem
    | false =>
      have hne : ("x-target-" ++ k, v) ≠ (k0, v0) := by
        intro he
        have hk0 : k0 = "x-target-" ++ k :=
          (((Prod.mk.injEq _ _ _ _).mp he).1).symm
        have hT : strStartsWith ("x-target-" ++ k) "x-target-" = true :=
          (strStartsWith_iff _ _).mpr ⟨k, rfl⟩
        rw [hk0, hT] at h
        simp at h
      rw [translateHeaders_cons_false _ _ _ h, ih]
      simp only [List.mem_cons]
      constructor
      · exact Or.inr
      · rintro (he | hmem)
        · exact absurd he hne
        · exact hmem

end Proxy

namespace Proxy

/-! ## Characterisation of `validateUrl` -/

theorem err_format_ne_required :
    ERRORS.INVALID_URL_FORMAT ≠ ERRORS.URL_REQUIRED := by decide

theorem err_domain_ne_required :
    ERRORS.DOMAIN_NOT_ALLOWED ≠ ERRORS.URL_REQUIRED := by decide

theorem err_domain_ne_format :
    ERRORS.DOMAIN_NOT_ALLOWED ≠ ERRORS.INVALID_URL_FORMAT := by decide

theorem validateUrl_none (ph : String → Option String)
    (allowed : List String) :
    validateUrl ph allowed none = .invalid ERRORS.URL_REQUIRED := rfl

theorem validateUrl_empty (ph : String → Option String)
    (allowed : List String) :
    validateUrl ph allowed (some "") = .invalid ERRORS.URL_REQUIRED := by
  simp [validateUrl]

theorem validateUrl_some_format (ph : String → Option String)
    (allowed : List String) (u : String) (hu : u ≠ "") (hph : ph u = none) :
    validateUrl ph allowed (some u) = .invalid ERRORS.INVALID_URL_FORMAT := by
  simp [validateUrl, hu, hph]

theorem validateUrl_some_domain (ph : String → Option String)
    (allowed : List String) (u host : String) (hu : u ≠ "")
    (hph : ph u = some host) (hc : allowed.contains host = false) :
    validateUrl ph allowed (some u) = .invalid ERRORS.DOMAIN_NOT_ALLOWED := by
  simp [validateUrl, hu, hph, hc]
  simpa using hc

theorem validateUrl_some_valid (ph : String → Option String)
    (allowed : List String) (u host : String) (hu : u ≠ "")
    (hph : ph u = some host) (hc : allowed.contains host = true) :
    validateUrl ph allowed (some u) = .valid := by
  simp [validateUrl, hu, hph, hc]
  simpa using hc

theorem validateUrl_eq_required (ph : String → Option String)
    (allowed : List String) (url : Option String) :
    validateUrl ph allowed url = .invalid ERRORS.URL_REQUIRED ↔
      url = none ∨ url = some "" := by
  cases url with
  | none => exact iff_of_true (validateUrl_none ph allowed) (Or.inl rfl)
  | some u =>
    rcases eq_or_ne u "" with rfl | hu
    · exact iff_of_true (validateUrl_empty ph allowed) (Or.inr rfl)
    · have hrhs : ¬(some u = none ∨ some u = some "") := by
        rintro (h | h)
        · exact Option.noConfusion h
        · exact hu (Option.some.inj h)
      cases hph : ph u with
      | none =>
        refine iff_of_false ?_ hrhs
        rw [validateUrl_some_format ph allowed u hu hph]
        intro h
        exact err_format_ne_required (UrlValidation.invalid.inj h)
      | some host =>
        cases hc : allowed.contains host with
        | true =>
          refine iff_of_false ?_ hrhs
          rw [validateUrl_some_valid ph allowed u host hu hph hc]
          intro h
          exact UrlValidation.noConfusion h
        | false =>
          refine iff_of_false ?_ hrhs
          rw [validateUrl_some_domain ph allowed u host hu hph hc]
          intro h
          exact err_domain_ne_required (UrlValidation.invalid.inj h)

theorem validateUrl_eq_format (ph : String → Option String)
    (allowed : List String) (url : Option String) :
    validateUrl ph allowed url = .invalid ERRORS.INVALID_URL_FORMAT ↔
      ∃ u, url = some u ∧ u ≠ "" ∧ ph u = none := by
  cases url with
  | none =>
    refine iff_of_false ?_ ?_
    · rw [validateUrl_none ph allowed]
      intro h
      exact err_format_ne_required (UrlValidation.invalid.inj h).symm
    · rintro ⟨u, h, -, -⟩
      exact Option.noConfusion h
  | some u =>
    rcases eq_or_ne u "" with rfl | hu
    · refine iff_of_false ?_ ?_
      · rw [validateUrl_empty ph allowed]
        intro h
        exact err_format_ne_required (UrlValidation.invalid.inj h).symm
      · rintro ⟨u2, h, hne, -⟩
        exact hne (Option.some.inj h).symm
    · cases hph : ph u with
      | none =>
        exact iff_of_true (validateUrl_some_format ph allowed u hu hph)
          ⟨u, rfl, hu, hph⟩
      | some host =>
        have hrhs : ¬∃ u2, some u = some u2 ∧ u2 ≠ "" ∧ ph u2 = none := by
          rintro ⟨u2, h2, -, hph2⟩
          rw [← Option.some.inj h2, hph] at hph2
          exact Option.noConfusion hph2
        cases hc : allowed.contains host with
        | true =>
          refine iff_of_false ?_ hrhs
          rw [validateUrl_some_valid ph allowed u host hu hph hc]
          intro h
          exact UrlValidation.noConfusion h
        | false =>
          refine iff_of_false ?_ hrhs
          rw [validateUrl_some_domain ph allowed u host hu hph hc]
          intro h
          exact err_domain_ne_format (UrlValidation.invalid.inj h)

theorem validateUrl_eq_domain (ph : String → Option String)
    (allowed : List String) (url : Option String) :
    validateUrl ph allowed url = .invalid ERRORS.DOMAIN_NOT_ALLOWED ↔
      ∃ u host, url = some u ∧ u ≠ "" ∧ ph u = some host ∧
        allowed.contains host = false := by
  cases url with
  | none =>
    refine iff_of_false ?_ ?_
    · rw [validateUrl_none ph allowed]
      intro h
      exact err_domain_ne_required (UrlValidation.invalid.inj h).symm
    · rintro ⟨u, host, h, -, -, -⟩
      exact Option.noConfusion h
  | some u =>
    rcases eq_or_ne u "" with rfl | hu
    · refine iff_of_false ?_ ?_
      · rw [validateUrl_empty ph allowed]
        intro h
        exact err_domain_ne_required (UrlValidation.invalid.inj h).symm
      · rintro ⟨u2, host, h, hne, -, -⟩
        exact hne (Option.some.inj h).symm
    · cases hph : ph u with
      | none =>
        refine iff_of_false ?_ ?_
        · rw [validateUrl_some_format ph allowed u hu hph]
          intro h
          exact err_domain_ne_format (UrlValidation.invalid.inj h).symm
        · rintro ⟨u2, host, h2, -, hph2, -⟩
          rw [← Option.some.inj h2, hph] at hph2
          exact Option.noConfusion hph2
      | some host =>
        cases hc : allowed.contains host with
        | true =>
          refine iff_of_false ?_ ?_
          · rw [validateUrl_some_valid ph allowed u host hu hph hc]
            intro h
            exact UrlValidation.noConfusion h
          · rintro ⟨u2, host2, h2, -, hph2, hc2⟩
            rw [← Option.some.inj h2, hph] at hph2
            rw [← Option.some.inj hph2] at hc2
            rw [hc] at hc2
            exact Bool.noConfusion hc2
        | false =>
          exact iff_of_true
            (validateUrl_some_domain ph allowed u host hu hph hc)
            ⟨u, host, rfl, hu, hph, hc⟩

theorem validateUrl_eq_valid (ph : String → Option String)
    (allowed : List String) (url : Option String) :
    validateUrl ph allowed url = .valid ↔
      ∃ u host, url = some u ∧ u ≠ "" ∧ ph u = some host ∧
        allowed.contains host = true := by
  cases url with
  | none =>
    refine iff_of_false ?_ ?_
    · rw [validateUrl_none ph allowed]
      intro h
      exact UrlValidation.noConfusion h
    · rintro ⟨u, host, h, -, -, -⟩
      exact Option.noConfusion h
  | some u =>
    rcases eq_or_ne u "" with rfl | hu
    · refine iff_of_false ?_ ?_
      · rw [validateUrl_empty ph allowed]
        intro h
        exact UrlValidation.noConfusion h
      · rintro ⟨u2, host, h, hne, -, -⟩
        exact hne (Option.some.inj h).symm
    · cases hph : ph u with
      | none =>
        refine iff_of_false ?_ ?_
        · rw [validateUrl_some_format ph allowed u hu hph]
          intro h
          exact UrlValidation.noConfusion h
        · rintro ⟨u2, host, h2, -, hph2, -⟩
          rw [← Option.some.inj h2, hph] at hph2
          exact Option.noConfusion hph2
      | some host =>
        cases hc : allowed.contains host with
        | true =>
          exact iff_of_true
            (validateUrl_some_valid ph allowed u host hu hph hc)
            ⟨u, host, rfl, hu, hph, hc⟩
        | false =>
          refine iff_of_false ?_ ?_
          · rw [validateUrl_some_domain ph allowed u host hu hph hc]
            intro h
            exact UrlValidation.noConfusion h
          · rintro ⟨u2, host2, h2, -, hph2, hc2⟩
            rw [← Option.some.inj h2, hph] at hph2
            rw [← Option.some.inj hph2] at hc2
            rw [hc] at hc2
            exact Bool.noConfusion hc2

/-! ## Characterisation of the authentication gate -/

theorem authRejected_eq_false_iff (apiKey provided : Option String) :
    authRejected apiKey provided = false ↔
      ∃ k, apiKey = some k ∧ k ≠ "" ∧ provided = some k := by
  cases apiKey with
  | none => simp [authRejected, jsFalsy]
  | some k =>
    by_cases hk : k = ""
    · subst hk
      simp [authRejected, jsFalsy]
    · simp [authRejected, jsFalsy, hk]

/-! ## Stage-by-stage unfolding of the pipeline -/

theorem proxy_auth_rejected (ph : String → Option String)
    (fo : FetchOutcome) (cfg : Config) (req : Request)
    (h : authRejected cfg.apiKey (req.headers.lookup "x-api-key") = true) :
    proxy ph fo cfg req = ⟨.err 401 ERRORS.INVALID_API_KEY, none⟩ := by
  simp [proxy, h]

theorem proxy_invalid (ph : String → Option String) (fo : FetchOutcome)
    (cfg : Config) (req : Request) (e : String)
    (hauth : authRejected cfg.apiKey (req.headers.lookup "x-api-key") = false)
    (hv : validateUrl ph cfg.allowedDomains (jsOr req.queryUrl req.bodyUrl) =
      .invalid e) :
    proxy ph fo cfg req = ⟨.err 400 e, none⟩ := by
  simp [proxy, hauth, hv]

theorem proxy_valid_network_error (ph : String → Option String)
    (cfg : Config) (req : Request)
    (hauth : authRejected cfg.apiKey (req.headers.lookup "x-api-key") = false)
    (hv : validateUrl ph cfg.allowedDomains (jsOr req.queryUrl req.bodyUrl) =
      .valid) :
    proxy ph .networkError cfg req =
      ⟨.err 500 ERRORS.PROXY_REQUEST_FAILED, some (proxyCall req)⟩ := by
  simp [proxy, hauth, hv, proxyCall]

theorem proxy_valid_parse_error (ph : String → Option String)
    (cfg : Config) (req : Request) (resp : UpstreamResponse)
    (hauth : authRejected cfg.apiKey (req.headers.lookup "x-api-key") = false)
    (hv : validateUrl ph cfg.allowedDomains (jsOr req.queryUrl req.bodyUrl) =
      .valid)
    (hp : parseResponseData resp = .error ()) :
    proxy ph (.ok resp) cfg req =
      ⟨.err 500 ERRORS.PROXY_REQUEST_FAILED, some (proxyCall req)⟩ := by
  simp [proxy, hauth, hv, hp, proxyCall]

theorem proxy_valid_parsed (ph : String → Option String)
    (cfg : Config) (req : Request) (resp : UpstreamResponse) (d : RespData)
    (hauth : authRejected cfg.apiKey (req.headers.lookup "x-api-key") = false)
    (hv : validateUrl ph cfg.allowedDomains (jsOr req.queryUrl req.bodyUrl) =
      .valid)
    (hp : parseResponseData resp = .ok d) :
    proxy ph (.ok resp) cfg req =
      ⟨.envelope resp.status d, some (proxyCall req)⟩ := by
  simp [proxy, hauth, hv, hp, proxyCall]

end Proxy

namespace Proxy

/-- Whenever the pipeline issues an outbound call, that call is exactly
`proxyCall req`: resolved URL, inbound method, translated headers,
resolved payload. -/
theorem proxy_outboundCall_eq (ph : String → Option String)
    (fo : FetchOutcome) (cfg : Config) (req : Request) (c : OutboundCall)
    (hcall : (proxy ph fo cfg req).outboundCall = some c) :
    c = proxyCall req := by
  cases hA : authRejected cfg.apiKey (req.headers.lookup "x-api-key") with
  | true =>
    rw [proxy_auth_rejected ph fo cfg req hA] at hcall
    exact Option.noConfusion hcall
  | false =>
    cases hv : validateUrl ph cfg.allowedDomains
        (jsOr req.queryUrl req.bodyUrl) with
    | invalid e =>
      rw [proxy_invalid ph fo cfg req e hA hv] at hcall
      exact Option.noConfusion hcall
    | valid =>
      cases fo with
      | networkError =>
        rw [proxy_valid_network_error ph cfg req hA hv] at hcall
        exact (Option.some.inj hcall).symm
      | ok resp =>
        cases hp : parseResponseData resp with
        | error e =>
          cases e
          rw [proxy_valid_parse_error ph cfg req resp hA hv hp] at hcall
          exact (Option.some.inj hcall).symm
        | ok d =>
          rw [proxy_valid_parsed ph cfg req resp d hA hv hp] at hcall
          exact (Option.some.inj hcall).symm

/-- Past validation, the pipeline never answers with HTTP status 400. -/
theorem proxy_valid_response_not_400 (ph : String → Option String)
    (fo : FetchOutcome) (cfg : Config) (req : Request) (m : String)
    (hauth : authRejected cfg.apiKey (req.headers.lookup "x-api-key") = false)
    (hv : validateUrl ph cfg.allowedDomains (jsOr req.queryUrl req.bodyUrl) =
      .valid) :
    (proxy ph fo cfg req).response ≠ .err 400 m := by
  cases fo with
  | networkError =>
    rw [proxy_valid_network_error ph cfg req hauth hv]
    intro h
    exact absurd (ProxyResponse.err.inj h).1 (by decide)
  | ok resp =>
    cases hp : parseResponseData resp with
    | error e =>
      cases e
      rw [proxy_valid_parse_error ph cfg req resp hauth hv hp]
      intro h
      exact absurd (ProxyResponse.err.inj h).1 (by decide)
    | ok d =>
      rw [proxy_valid_parsed ph cfg req resp d hauth hv hp]
      intro h
      exact ProxyResponse.noConfusion h

end Proxy

namespace Proxy

/-! ## Claim theorems -/

/-- C1 (code behaviour at the claimed scenario): with allowed hosts
`api.example.com`, a correctly authenticated request targeting
`https://evil.com/x` (parseable, hostname `evil.com` outside the set)
is answered with the error message `Domain not allowed` and no outbound
call is made — but with HTTP status 400, not the documented 403: the
handler passes every `validateUrl` failure to `res.status(400)`. -/
theorem domain_not_allowed_status_400 :
    proxy (fun u => if u = "https://evil.com/x" then some "evil.com" else none)
      .networkError ⟨some "k", ["api.example.com"]⟩
      ⟨"GET", [("x-api-key", "k")], some "https://evil.com/x",
        none, none, none⟩ =
      ⟨.err 400 ERRORS.DOMAIN_NOT_ALLOWED, none⟩ ∧ (400 : Nat) ≠ 403 :=
  ⟨rfl, by decide⟩

/-- C2: the header translation forwards exactly the entries whose key
carries the case-sensitive marker `x-target-`: the outbound mapping
holds the pair `(k, v)` precisely when the inbound mapping holds
`("x-target-" ++ k, v)` — the marker is stripped, values are unchanged,
and entries without the marker (notably the caller's `x-api-key`
secret) contribute nothing to the outbound mapping. -/
theorem header_translation_exact (hs : List (String × String))
    (k v : String) :
    (k, v) ∈ translateHeaders hs ↔ ("x-target-" ++ k, v) ∈ hs :=
  translateHeaders_mem_iff hs k v

/-- C3: authentication is fail-closed and exact.  If the configured
secret is absent, or the `x-api-key` header value differs from it
(including an absent header), the pipeline answers 401 `Invalid API
key` with no outbound call and no further stage; and whenever the 401
answer is not produced, the configured secret exists and the header
value equals it exactly. -/
theorem auth_fail_closed (ph : String → Option String) (fo : FetchOutcome)
    (cfg : Config) (req : Request) :
    ((cfg.apiKey = none ∨ req.headers.lookup "x-api-key" ≠ cfg.apiKey) →
      proxy ph fo cfg req = ⟨.err 401 ERRORS.INVALID_API_KEY, none⟩) ∧
    ((proxy ph fo cfg req).response ≠ .err 401 ERRORS.INVALID_API_KEY →
      ∃ k, cfg.apiKey = some k ∧
        req.headers.lookup "x-api-key" = some k) := by
  constructor
  · intro h
    apply proxy_auth_rejected
    cases hA : authRejected cfg.apiKey (req.headers.lookup "x-api-key") with
    | true => rfl
    | false =>
      exfalso
      obtain ⟨k, hk, hne, hp⟩ := (authRejected_eq_false_iff _ _).mp hA
      rcases h with h | h
      · rw [hk] at h
        exact Option.noConfusion h
      · rw [hk, hp] at h
        exact absurd rfl h
  · intro h
    cases hA : authRejected cfg.apiKey (req.headers.lookup "x-api-key") with
    | true =>
      rw [proxy_auth_rejected ph fo cfg req hA] at h
      exact absurd rfl h
    | false =>
      obtain ⟨k, hk, hne, hp⟩ := (authRejected_eq_false_iff _ _).mp hA
      exact ⟨k, hk, hp⟩

theorem auth_fail_closed_witness :
    proxy (fun _ => none) .networkError ⟨none, []⟩
      ⟨"GET", [("x-api-key", "secret")], none, none, none, none⟩ =
      ⟨.err 401 ERRORS.INVALID_API_KEY, none⟩ :=
  (auth_fail_closed (fun _ => none) .networkError ⟨none, []⟩
    ⟨"GET", [("x-api-key", "secret")], none, none, none, none⟩).1
    (Or.inl rfl)

/-- C4 as stated is false on the code: here both the query parameter
`url` and the body field `url` are present (the query one with value
`""`, the body one non-empty), yet the forward target is the body's
value, not the query's, and likewise for the payload field `body`. -/
theorem query_precedence_counterexample :
    (proxy (fun u => if u = "https://api.example.com/x" then
        some "api.example.com" else none)
      .networkError ⟨some "k", ["api.example.com"]⟩
      ⟨"GET", [("x-api-key", "k")], some "", some "",
        some "https://api.example.com/x", some "pay"⟩).outboundCall =
      some ⟨"https://api.example.com/x", "GET", [], some "pay"⟩ ∧
    ("" : String) ≠ "https://api.example.com/x" ∧ ("" : String) ≠ "pay" :=
  ⟨rfl, by decide, by decide⟩

/-- C4 amended: the query parameter takes precedence over the body
field whenever both are supplied and the query value is non-empty
(JS truthiness); under that proviso every outbound call the pipeline
issues targets the query's `url` value, and likewise carries the
query's `body` value as payload. -/
theorem query_precedence_amended (ph : String → Option String)
    (fo : FetchOutcome) (cfg : Config) (req : Request) (q : String)
    (c : OutboundCall)
    (hq : req.queryUrl = some q) (hqne : q ≠ "")
    (hcall : (proxy ph fo cfg req).outboundCall = some c) :
    c.url = q ∧
    (∀ b, req.queryBody = some b → b ≠ "" → c.body = some b) := by
  have hc := proxy_outboundCall_eq ph fo cfg req c hcall
  subst hc
  constructor
  · show (jsOr req.queryUrl req.bodyUrl).getD "" = q
    rw [hq]
    simp [jsOr, hqne]
  · intro b hb hbne
    show jsOr req.queryBody req.bodyBody = some b
    rw [hb]
    simp [jsOr, hbne]

theorem query_precedence_amended_witness :
    (⟨"https://a.example/x", "GET", [], some "qb"⟩ : OutboundCall).url =
      "https://a.example/x" ∧
    (∀ b, (some "qb" : Option String) = some b → b ≠ "" →
      (⟨"https://a.example/x", "GET", [], some "qb"⟩ : OutboundCall).body =
        some b) :=
  query_precedence_amended
    (fun u => if u = "https://a.example/x" then some "a.example" else none)
    .networkError ⟨some "k", ["a.example"]⟩
    ⟨"GET", [("x-api-key", "k")], some "https://a.example/x", some "qb",
      some "https://other.example/", some "bb"⟩
    "https://a.example/x" ⟨"https://a.example/x", "GET", [], some "qb"⟩
    rfl (by decide) rfl

/-- C5: whenever the pipeline issues its outbound call and the forward
fails — the network call rejects, or reading/decoding the response body
throws (body-read failure, or JSON-decode failure on a response whose
content type is labelled JSON) — the caller receives exactly HTTP 500
with the error message `Proxy request failed`, with no distinction
between the sub-causes. -/
theorem forward_failure_uniform (ph : String → Option String)
    (fo : FetchOutcome) (cfg : Config) (req : Request)
    (hcall : (proxy ph fo cfg req).outboundCall ≠ none)
    (hfail : fetchFailed fo = true) :
    (proxy ph fo cfg req).response = .err 500 ERRORS.PROXY_REQUEST_FAILED := by
  cases hA : authRejected cfg.apiKey (req.headers.lookup "x-api-key") with
  | true =>
    rw [proxy_auth_rejected ph fo cfg req hA] at hcall
    exact absurd rfl hcall
  | false =>
    cases hv : validateUrl ph cfg.allowedDomains
        (jsOr req.queryUrl req.bodyUrl) with
    | invalid e =>
      rw [proxy_invalid ph fo cfg req e hA hv] at hcall
      exact absurd rfl hcall
    | valid =>
      cases fo with
      | networkError =>
        rw [proxy_valid_network_error ph cfg req hA hv]
      | ok resp =>
        cases hp : parseResponseData resp with
        | error e =>
          cases e
          rw [proxy_valid_parse_error ph cfg req resp hA hv hp]
        | ok d =>
          exfalso
          simp [fetchFailed, hp] at hfail

theorem forward_failure_uniform_witness :
    (proxy (fun u => if u = "https://w.example/" then
        some "w.example" else none)
      .networkError ⟨some "k", ["w.example"]⟩
      ⟨"GET", [("x-api-key", "k")], some "https://w.example/",
        none, none, none⟩).response =
      .err 500 ERRORS.PROXY_REQUEST_FAILED :=
  forward_failure_uniform
    (fun u => if u = "https://w.example/" then some "w.example" else none)
    .networkError ⟨some "k", ["w.example"]⟩
    ⟨"GET", [("x-api-key", "k")], some "https://w.example/",
      none, none, none⟩
    (fun h => Option.noConfusion h) rfl

/-- C6: past authentication, the pipeline answers 400 `URL required`
exactly when the resolved raw target is absent or empty, and 400
`Invalid URL format` exactly when it is non-empty but fails to parse;
host membership plays no role in either answer, being checked only
afterwards. -/
theorem target_validation_order (ph : String → Option String)
    (fo : FetchOutcome) (cfg : Config) (req : Request)
    (hauth : authRejected cfg.apiKey (req.headers.lookup "x-api-key") =
      false) :
    ((proxy ph fo cfg req).response = .err 400 ERRORS.URL_REQUIRED ↔
      jsOr req.queryUrl req.bodyUrl = none ∨
        jsOr req.queryUrl req.bodyUrl = some "") ∧
    ((proxy ph fo cfg req).response = .err 400 ERRORS.INVALID_URL_FORMAT ↔
      ∃ u, jsOr req.queryUrl req.bodyUrl = some u ∧ u ≠ "" ∧
        ph u = none) := by
  cases hv : validateUrl ph cfg.allowedDomains
      (jsOr req.queryUrl req.bodyUrl) with
  | invalid e =>
    rw [proxy_invalid ph fo cfg req e hauth hv]
    constructor
    · constructor
      · intro h
        have he : e = ERRORS.URL_REQUIRED := (ProxyResponse.err.inj h).2
        rw [he] at hv
        exact (validateUrl_eq_required ph cfg.allowedDomains _).mp hv
      · intro h
        have h2 := (validateUrl_eq_required ph cfg.allowedDomains _).mpr h
        rw [hv] at h2
        rw [(UrlValidation.invalid.inj h2).symm]
    · constructor
      · intro h
        have he : e = ERRORS.INVALID_URL_FORMAT := (ProxyResponse.err.inj h).2
        rw [he] at hv
        exact (validateUrl_eq_format ph cfg.allowedDomains _).mp hv
      · intro h
        have h2 := (validateUrl_eq_format ph cfg.allowedDomains _).mpr h
        rw [hv] at h2
        rw [(UrlValidation.invalid.inj h2).symm]
  | valid =>
    obtain ⟨u, host, hsome, hne, hph, -⟩ :=
      (validateUrl_eq_valid ph cfg.allowedDomains _).mp hv
    constructor
    · refine iff_of_false (proxy_valid_response_not_400 ph fo cfg req _
        hauth hv) ?_
      rintro (h | h)
      · rw [hsome] at h
        exact Option.noConfusion h
      · rw [hsome] at h
        exact hne (Option.some.inj h)
    · refine iff_of_false (proxy_valid_response_not_400 ph fo cfg req _
        hauth hv) ?_
      rintro ⟨u2, h2, -, hph2⟩
      rw [hsome] at h2
      rw [← Option.some.inj h2, hph] at hph2
      exact Option.noConfusion hph2

theorem target_validation_order_witness :
    ((proxy (fun _ => (none : Option String)) .networkError ⟨some "k", []⟩
      ⟨"GET", [("x-api-key", "k")], none, none, none, none⟩).response =
        .err 400 ERRORS.URL_REQUIRED ↔
      jsOr none none = none ∨ jsOr none none = some "") ∧
    ((proxy (fun _ => (none : Option String)) .networkError ⟨some "k", []⟩
      ⟨"GET", [("x-api-key", "k")], none, none, none, none⟩).response =
        .err 400 ERRORS.INVALID_URL_FORMAT ↔
      ∃ u, jsOr none none = some u ∧ u ≠ "" ∧
        (fun _ => (none : Option String)) u = none) :=
  target_validation_order (fun _ => none) .networkError ⟨some "k", []⟩
    ⟨"GET", [("x-api-key", "k")], none, none, none, none⟩ rfl

/-- C7: the upstream body is decoded as JSON precisely when the
`content-type` response header is present and contains
`application/json` as a substring (so parameters such as
`; charset=utf-8` still count); in every other case — header absent or
substring missing — the body is taken as opaque text. -/
theorem content_type_sniffing (resp : UpstreamResponse) :
    ((∃ ct pre post, resp.contentType = some ct ∧
        ct.data = pre ++ ("application/json").data ++ post) →
      parseResponseData resp = resp.jsonResult.map RespData.json) ∧
    ((¬ ∃ ct pre post, resp.contentType = some ct ∧
        ct.data = pre ++ ("application/json").data ++ post) →
      parseResponseData resp = resp.textResult.map RespData.text) := by
  obtain ⟨st, ctOpt, jr, tr⟩ := resp
  constructor
  · rintro ⟨ct, pre, post, hct, hsub⟩
    cases hct
    have hinc : strIncludes ct "application/json" = true := by
      rw [strIncludes, hasSubstr_iff]
      exact ⟨pre, post, hsub⟩
    simp [parseResponseData, hinc]
  · intro hnot
    cases ctOpt with
    | none => simp [parseResponseData]
    | some ct =>
      have hinc : strIncludes ct "application/json" = false := by
        cases hI : strIncludes ct "application/json" with
        | false => rfl
        | true =>
          exfalso
          rw [strIncludes] at hI
          obtain ⟨pre, post, hsub⟩ := (hasSubstr_iff _ _).mp hI
          exact hnot ⟨ct, pre, post, rfl, hsub⟩
      simp [parseResponseData, hinc]

theorem content_type_sniffing_witness :
    parseResponseData ⟨200, some "application/json; charset=utf-8",
        .ok (Json.num 1), .ok "t"⟩ =
      Except.ok (RespData.json (Json.num 1)) ∧
    parseResponseData ⟨200, some "text/plain",
        .ok (Json.num 1), .ok "hello"⟩ =
      Except.ok (RespData.text "hello") :=
  ⟨(content_type_sniffing ⟨200, some "application/json; charset=utf-8",
      .ok (Json.num 1), .ok "t"⟩).1
    ⟨"application/json; charset=utf-8", [], ("; charset=utf-8").data,
      rfl, by decide⟩,
  (content_type_sniffing ⟨200, some "text/plain",
      .ok (Json.num 1), .ok "hello"⟩).2
    (by
      rintro ⟨ct, pre, post, hct, hsub⟩
      rw [← Option.some.inj hct] at hsub
      have hT : hasSubstr ("application/json").data ("text/plain").data =
          true := (hasSubstr_iff _ _).mpr ⟨pre, post, hsub⟩
      exact absurd hT (by decide))⟩

/-- C8: every successful forward (the outbound call was issued and the
body parsed) is answered with caller-side HTTP status 200 whose body is
the envelope of the upstream status, carried through verbatim, and the
decoded body. -/
theorem success_envelope_passthrough (ph : String → Option String)
    (cfg : Config) (req : Request) (resp : UpstreamResponse) (d : RespData)
    (hcall : (proxy ph (.ok resp) cfg req).outboundCall ≠ none)
    (hp : parseResponseData resp = .ok d) :
    (proxy ph (.ok resp) cfg req).response = .envelope resp.status d ∧
    ((proxy ph (.ok resp) cfg req).response).httpStatus = 200 := by
  cases hA : authRejected cfg.apiKey (req.headers.lookup "x-api-key") with
  | true =>
    rw [proxy_auth_rejected ph (.ok resp) cfg req hA] at hcall
    exact absurd rfl hcall
  | false =>
    cases hv : validateUrl ph cfg.allowedDomains
        (jsOr req.queryUrl req.bodyUrl) with
    | invalid e =>
      rw [proxy_invalid ph (.ok resp) cfg req e hA hv] at hcall
      exact absurd rfl hcall
    | valid =>
      rw [proxy_valid_parsed ph cfg req resp d hA hv hp]
      exact ⟨rfl, rfl⟩

theorem success_envelope_passthrough_witness :
    (proxy (fun u => if u = "https://e.example/r" then
        some "e.example" else none)
      (.ok ⟨404, some "application/json", .ok Json.null, .ok "t"⟩)
      ⟨some "k", ["e.example"]⟩
      ⟨"GET", [("x-api-key", "k")], some "https://e.example/r",
        none, none, none⟩).response =
      .envelope 404 (RespData.json Json.null) ∧
    ((proxy (fun u => if u = "https://e.example/r" then
        some "e.example" else none)
      (.ok ⟨404, some "application/json", .ok Json.null, .ok "t"⟩)
      ⟨some "k", ["e.example"]⟩
      ⟨"GET", [("x-api-key", "k")], some "https://e.example/r",
        none, none, none⟩).response).httpStatus = 200 :=
  success_envelope_passthrough
    (fun u => if u = "https://e.example/r" then some "e.example" else none)
    ⟨some "k", ["e.example"]⟩
    ⟨"GET", [("x-api-key", "k")], some "https://e.example/r",
      none, none, none⟩
    ⟨404, some "application/json", .ok Json.null, .ok "t"⟩
    (RespData.json Json.null)
    (fun h => Option.noConfusion h) rfl

/-- C9: the extraction treats a present-but-empty (falsy) query value
as absent: when the query `url` is the empty string and the body `url`
is supplied, the body's value is the forward target (and every outbound
call targets it), and the payload field `body` behaves the same way. -/
theorem falsy_query_treated_absent (ph : String → Option String)
    (fo : FetchOutcome) (cfg : Config) (req : Request) (u : String)
    (hq : req.queryUrl = some "") (hb : req.bodyUrl = some u) :
    jsOr req.queryUrl req.bodyUrl = some u ∧
    (∀ c, (proxy ph fo cfg req).outboundCall = some c → c.url = u) ∧
    (∀ b, req.queryBody = some "" → req.bodyBody = some b →
      jsOr req.queryBody req.bodyBody = some b) := by
  have h1 : jsOr req.queryUrl req.bodyUrl = some u := by
    rw [hq, hb]
    simp [jsOr]
  refine ⟨h1, ?_, ?_⟩
  · intro c hcall
    have hc := proxy_outboundCall_eq ph fo cfg req c hcall
    subst hc
    show (jsOr req.queryUrl req.bodyUrl).getD "" = u
    rw [h1]
    rfl
  · intro b hqb hbb
    rw [hqb, hbb]
    simp [jsOr]

theorem falsy_query_treated_absent_witness :
    jsOr (some "") (some "https://h.example/p") =
      some "https://h.example/p" ∧
    (∀ c, (proxy (fun u => if u = "https://h.example/p" then
        some "h.example" else none)
      .networkError ⟨some "k", ["h.example"]⟩
      ⟨"GET", [("x-api-key", "k")], some "", some "",
        some "https://h.example/p", some "pl"⟩).outboundCall = some c →
      c.url = "https://h.example/p") ∧
    (∀ b, (some "" : Option String) = some "" →
      (some "pl" : Option String) = some b →
      jsOr (some "") (some "pl") = some b) :=
  falsy_query_treated_absent
    (fun u => if u = "https://h.example/p" then some "h.example" else none)
    .networkError ⟨some "k", ["h.example"]⟩
    ⟨"GET", [("x-api-key", "k")], some "", some "",
      some "https://h.example/p", some "pl"⟩
    "https://h.example/p" rfl rfl

/-- C10: `key.replace('x-target-', '')` removes only the first
occurrence of the marker, so an inbound entry under
`x-target-x-target-a` is forwarded under the outbound key
`x-target-a`, not `a`. -/
theorem doubled_marker_strip (hs : List (String × String)) (v : String)
    (h : ("x-target-x-target-a", v) ∈ hs) :
    jsReplaceFirst "x-target-x-target-a" "x-target-" = "x-target-a" ∧
    ("x-target-a", v) ∈ translateHeaders hs := by
  refine ⟨by decide, ?_⟩
  rw [translateHeaders_mem_iff]
  have he : ("x-target-" ++ "x-target-a" : String) =
      "x-target-x-target-a" := by decide
  rw [he]
  exact h

theorem doubled_marker_strip_witness :
    jsReplaceFirst "x-target-x-target-a" "x-target-" = "x-target-a" ∧
    ("x-target-a", "v") ∈ translateHeaders [("x-target-x-target-a", "v")] :=
  doubled_marker_strip [("x-target-x-target-a", "v")] "v" (by decide)

end Proxy
